import Mathlib

/-!
Verification of the bspline repository's specification against its code.

The repository ships two source files: the test harness
`src/Tests/C++/bspline.cpp` and the version header
`src/BSpline/BSplineVersion.h`.  The core fitting library (`BSpline.h`,
`BSplineBase`) is not among the given files, so the parts of the model that
concern it are modelled from the specification and are marked as such in
their doc comments.  Everything else below is a shallow embedding of the
harness code: doubles become `ℚ`, `std::vector` becomes `List`, and the
C++ control flow is reproduced by explicit recursion.
-/

set_option autoImplicit false

namespace BSplineSpec

/-- The static version string from `src/BSpline/BSplineVersion.h` line 16:
`#define BSPLINE_VERSION "v1.6-x"`. -/
def BSPLINE_VERSION : String := "v1.6-x"

/-- The repository URL from `src/BSpline/BSplineVersion.h` line 22. -/
def BSPLINE_URL : String := "https://github.com/NCAR/bspline"

/-- Modelled from the spec: `BSplineBase::Version()` (its implementation is
not under `src/`) returns the static identifying string, i.e. the value of
`BSPLINE_VERSION`. -/
def SplineBaseVersion : String := BSPLINE_VERSION

/-- Modelled from the spec: the boundary-condition selector enumerated in
§4.1 of the spec (`BC_ZERO_ENDPOINTS`, `BC_ZERO_FIRST`, `BC_ZERO_SECOND`).
The numeric values of the C++ enum live in the missing `BSpline.h`; only the
three alternatives matter here. -/
inductive BCType where
  | BC_ZERO_ENDPOINTS
  | BC_ZERO_FIRST
  | BC_ZERO_SECOND
deriving DecidableEq, Repr

/-- One parsed command-line option of the harness (`optv` table,
`bspline.cpp` lines 56-68).  Each constructor carries the already-converted
argument value (the `atoi`/`atof` conversion is external C library code).
`badOpt` stands for any option the `Options` parser rejects or an option
with a missing required argument: every such case increments `err`. -/
inductive Opt where
  | input (s : String)
  | output (s : String)
  | stepOpt (v : Int)
  | wavelengthOpt (v : ℚ)
  | bcdegree (d : Int)
  | nodes (v : Int)
  | debugOpt
  | versionOpt
  | helpOpt
  | badOpt
deriving DecidableEq, Repr

/-- The state mutated by `parseCommandLine` (`bspline.cpp` lines 80-203):
the out-parameters plus the local error counter. -/
structure ParseState where
  infile : String
  outfile : String
  step : Int
  wavelength : ℚ
  bc : BCType
  num_nodes : Int
  debug : Bool
  err : Nat
deriving DecidableEq, Repr

/-- The initialization at `bspline.cpp` lines 91-99: `step = 0`,
`bc = BC_ZERO_SECOND`, `num_nodes = 0`, `debug = false`,
`wavelength = -1.0` (meaning "not set"), `err = 0`; the two file-name
strings are default-constructed (empty) in `main`. -/
def initState : ParseState :=
  { infile := "", outfile := "", step := 0, wavelength := -1,
    bc := BCType.BC_ZERO_SECOND, num_nodes := 0, debug := false, err := 0 }

/-- The `switch (degree)` at `bspline.cpp` lines 157-169: `0` selects
`BC_ZERO_ENDPOINTS`, `1` selects `BC_ZERO_FIRST`, and `2` as well as every
other value (the `default` label) selects `BC_ZERO_SECOND`. -/
def bcFromDegree (d : Int) : BCType :=
  if d = 0 then BCType.BC_ZERO_ENDPOINTS
  else if d = 1 then BCType.BC_ZERO_FIRST
  else BCType.BC_ZERO_SECOND

/-- Effect of one non-exiting option on the parse state
(`bspline.cpp` lines 121-192). -/
def applyOpt (s : ParseState) (o : Opt) : ParseState :=
  match o with
  | Opt.input f => { s with infile := f }
  | Opt.output f => { s with outfile := f }
  | Opt.stepOpt v => { s with step := v }
  | Opt.wavelengthOpt v => { s with wavelength := v }
  | Opt.bcdegree d => { s with bc := bcFromDegree d }
  | Opt.nodes v => { s with num_nodes := v }
  | Opt.debugOpt => { s with debug := true }
  | Opt.badOpt => { s with err := s.err + 1 }
  | Opt.versionOpt => s
  | Opt.helpOpt => s

/-- Outcome of `parseCommandLine`: the three `exit` paths (help and version
exit with status 0, a usage error exits with status 1) or the filled-in
parameter set handed back to `main`. -/
inductive ParseResult where
  | exitHelp
  | exitVersion (version url : String)
  | exitUsage
  | parsed (cfg : ParseState)
deriving DecidableEq, Repr

/-- The option-processing loop of `parseCommandLine` plus its final checks
(`bspline.cpp` lines 105-202): `-h` exits printing usage, `-v` exits
printing the version string and the repository URL; after the loop, an
unset wavelength (`wavelength < 0`, line 196) counts as one more error, and
any nonzero error count exits with usage (status 1). -/
def parseLoop (s : ParseState) : List Opt → ParseResult
  | [] =>
    let errFinal := if s.wavelength < 0 then s.err + 1 else s.err
    if errFinal ≠ 0 then ParseResult.exitUsage else ParseResult.parsed s
  | o :: rest =>
    match o with
    | Opt.helpOpt => ParseResult.exitHelp
    | Opt.versionOpt => ParseResult.exitVersion SplineBaseVersion BSPLINE_URL
    | _ => parseLoop (applyOpt s o) rest

/-- `parseCommandLine` on a full option list, from the initial state. -/
def parseCommandLine (opts : List Opt) : ParseResult := parseLoop initState opts

/-- The process exit status carried by each early-exit parse outcome;
`none` when parsing returned normally. -/
def exitCode : ParseResult → Option Int
  | ParseResult.exitHelp => some 0
  | ParseResult.exitVersion _ _ => some 0
  | ParseResult.exitUsage => some 1
  | ParseResult.parsed _ => none

/-- Whether `main` goes on to construct the spline: it does so only when
`parseCommandLine` returned normally (every other outcome has already
called `exit`). -/
def fitPerformed : ParseResult → Bool
  | ParseResult.parsed _ => true
  | _ => false

/-- The argument triple `main` hands to the `BSpline` constructor at
`bspline.cpp` lines 296-301, besides the data arrays: the wavelength, the
boundary condition, and the node count are all passed together. -/
def mainSplineArgs (cfg : ParseState) : ℚ × BCType × Int :=
  (cfg.wavelength, cfg.bc, cfg.num_nodes)

/-- Is this option a `-w` wavelength option (with any value)? -/
def isWavelengthOpt : Opt → Bool
  | Opt.wavelengthOpt _ => true
  | _ => false

/-- Is this option a `-w` option carrying a nonnegative value, i.e. one
that would leave `wavelength ≥ 0` and so defeat the line-196 check? -/
def isWavelengthSet : Opt → Bool
  | Opt.wavelengthOpt v => decide (0 ≤ v)
  | _ => false

/-- Is this option one of the two immediate-exit options `-h`/`-v`? -/
def isEarlyExit : Opt → Bool
  | Opt.helpOpt => true
  | Opt.versionOpt => true
  | _ => false

/-- Is this option a `-b` boundary-condition option? -/
def isBcOpt : Opt → Bool
  | Opt.bcdegree _ => true
  | _ => false

/-- The parse state produced by the single option `-w 1`. -/
def cfgWavelengthOne : ParseState :=
  { infile := "", outfile := "", step := 0, wavelength := 1,
    bc := BCType.BC_ZERO_SECOND, num_nodes := 0, debug := false, err := 0 }

/- ### The input-reading loop (`bspline.cpp` lines 264-276) -/

/-- The successive `(f, g)` pairs the read loop extracts from the input
token stream: values are consumed two at a time and a trailing value with
no partner is discarded (the `else break` at line 274). -/
def toPairs : List ℚ → List (ℚ × ℚ)
  | f :: g :: rest => (f, g) :: toPairs rest
  | _ => []

/-- The body of the read loop once `base` is fixed: each x value stored is
the value read minus `base` (line 269), each y value is stored as read. -/
def readPairs (base : ℚ) : List ℚ → List ℚ × List ℚ
  | f :: g :: rest =>
    let p := readPairs base rest
    ((f - base) :: p.1, g :: p.2)
  | _ => ([], [])

/-- The whole read loop: `base` is the first value read (lines 266-268),
and it is subtracted from every abscissa, including the first. -/
def readData (input : List ℚ) : List ℚ × List ℚ :=
  match input with
  | [] => ([], [])
  | f :: _ => readPairs f input

/- ### The subsampling loop (`bspline.cpp` lines 278-290) -/

/-- The subsampling loop body: while both read iterators are in range,
copy the current elements and advance both read iterators by `step`
(write iterators advance by one; since `step ≥ 2` the writes never
overtake the reads, so reading from the original contents is faithful).
Dropping `step - 1` elements after the head models `xo += step`. -/
def subsamplePairs (step : Nat) : List ℚ → List ℚ → List ℚ × List ℚ
  | a :: xs, b :: ys =>
    let p := subsamplePairs step (xs.drop (step - 1)) (ys.drop (step - 1))
    (a :: p.1, b :: p.2)
  | _, _ => ([], [])
termination_by x _ => x.length
decreasing_by
  simp [List.length_drop]
  omega

/-- The guarded subsampling block: it runs only `if (step > 1)`
(line 281), and then resizes both vectors to the number of copied
elements; otherwise both vectors are left untouched. -/
def subsample (step : Int) (x y : List ℚ) : List ℚ × List ℚ :=
  if 1 < step then subsamplePairs step.toNat x y else (x, y)

/- ### DumpSpline (`bspline.cpp` lines 349-386) -/

/-- The modulus of `size_t` arithmetic on the test platform (64-bit). -/
def SIZE_T_MOD : Nat := 2 ^ 64

/-- The loop bound `2*xv.size()-1` of `DumpSpline` (line 365), computed in
unsigned `size_t` arithmetic: for an empty vector the subtraction wraps
around to `2^64 - 1`. -/
def dumpBound (n : Nat) : Nat := (2 * n + (SIZE_T_MOD - 1)) % SIZE_T_MOD

/-- The modulus of `unsigned int` arithmetic on the test platform (LP64:
`unsigned int` is 32 bits, unlike the 64-bit `size_t` of the bound). -/
def UINT_MOD : Nat := 2 ^ 32

/-- One increment of the loop counter of `DumpSpline` (line 365): `i` is
declared `unsigned int`, so `i += (2 - int(evalmid))` — with `evalmid`
fixed `false` (line 363), `i += 2` — wraps modulo `2^32`. -/
def dumpStep (i : Nat) : Nat := (i + 2) % UINT_MOD

/-- The `DumpSpline` loop with its 32-bit wrapping counter: starting from
counter value `i`, collect one entry per executed iteration while the
(64-bit) comparison `i < bound` holds.  `fuel` bounds how many iterations
are modelled: `some l` means the loop exited after `l.length ≤ fuel`
iterations, `none` that it had not exited within `fuel` iterations — in
particular, when the counter can never reach the bound (it wraps instead),
the result is `none` for every fuel. -/
def dumpLoop (bound : Nat) : Nat → Nat → Option (List Nat)
  | i, 0 => if i < bound then none else some []
  | i, fuel + 1 =>
    if i < bound then (dumpLoop bound (dumpStep i) fuel).map (fun l => i :: l)
    else some []

/-- The loop counter values for a vector of `n` points, with an iteration
budget of `n` — exactly enough when the loop exits (claim C10); `none`
reports that the loop did not exit within that budget (for an empty vector
it never exits at any budget, see claim C10). -/
def dumpRowIndices (n : Nat) : Option (List Nat) := dumpLoop (dumpBound n) 0 n

/-- The pair of vector indices a loop iteration with counter `i` reads:
`x1 = xv[i >> 1]` and `x2 = xv[(i >> 1) + i%2]` (lines 367-368), and the
same two indices into `yv`. -/
def dumpAccessIndices (i : Nat) : Nat × Nat := (i / 2, i / 2 + i % 2)

/-- Number of data rows of an exiting run of `DumpSpline` (0 when the loop
is not known to exit within the modelled budget; claim C10 characterizes
the exiting regime). -/
def dumpRowCount (n : Nat) : Nat := ((dumpRowIndices n).getD []).length

/-- Total lines `DumpSpline` writes on an exiting run: one header line
(lines 356-360) plus one data row per loop iteration. -/
def dumpLineCount (n : Nat) : Nat := 1 + dumpRowCount n

/-- How many times each of `spline.evaluate` and `spline.slope` is called
by `DumpSpline`: once per data row (lines 375, 377). -/
def dumpEvalCallCount (n : Nat) : Nat := dumpRowCount n

/-- What `main` reports after the fit (`bspline.cpp` lines 302-306):
the dumped curve when `spline.ok()` holds, otherwise the failure message
on stderr. -/
inductive FitReport where
  | curve (lines : Nat)
  | failureMsg (msg : String)
deriving DecidableEq, Repr

/-- The `if (spline.ok())` dispatch in `main` (lines 302-306). -/
def mainReport (ok : Bool) (n : Nat) : FitReport :=
  if ok then FitReport.curve (dumpLineCount n)
  else FitReport.failureMsg "Spline setup failed."

/-- Number of `evaluate` calls `main` makes (all inside `DumpSpline`,
which runs only when `spline.ok()` is true); `slope` is called equally
often. -/
def mainEvalCalls (ok : Bool) (n : Nat) : Nat :=
  if ok then dumpEvalCallCount n else 0

/- ### Spec-modelled core: the Basis Engine and Curve Fit

The fitting library itself (`BSpline.h` / `BSplineBase`) is not among the
given source files, so the definitions below are modelled from the
specification (§2-§4): a uniform cubic B-spline basis over the abscissa
domain, knot spacing from the wavelength or from an explicit node count,
a normal-equations matrix accumulated from basis values at the abscissas,
an elimination-based factorization/solve, and evaluation of the fitted
curve and its derivative.  Exact rational arithmetic stands in for
`double`. -/

/-- Minimum of a list of rationals (0 for the empty list, which is a
degenerate configuration anyway). -/
def listMin : List ℚ → ℚ
  | [] => 0
  | a :: rest => rest.foldl min a

/-- Maximum of a list of rationals. -/
def listMax : List ℚ → ℚ
  | [] => 0
  | a :: rest => rest.foldl max a

/-- Modelled from the spec: the minimum admissible explicit node count for
a cubic basis — at least two nodes are needed to span one knot interval
(spec §4.1 rejects "node count below the minimum required for a cubic
basis" without fixing the constant). -/
def cubicBasisMinNodes : Nat := 2

/-- Modelled from the spec (§3, Knot Sequence): the number of knot
intervals is taken from the explicit node count when one is given
(`spacing = domain span / (node count - constant)`), and otherwise from
the smoothing wavelength (spacing no finer than the wavelength) — exactly
one of the two determines the spacing. -/
def nIntervalsFor (span waveLength : ℚ) (num_nodes : Int) : Nat :=
  if 0 < num_nodes then (num_nodes - 1).toNat
  else max 1 ((span / waveLength).ceil.toNat)

/-- The cardinal cubic B-spline, supported on `(-2, 2)`. -/
def cubicB (u : ℚ) : ℚ :=
  let a := |u|
  if a < 1 then 2/3 - a ^ 2 + a ^ 3 / 2
  else if a < 2 then (2 - a) ^ 3 / 6
  else 0

/-- Derivative of the cardinal cubic B-spline. -/
def cubicBderiv (u : ℚ) : ℚ :=
  let a := |u|
  let s : ℚ := if u < 0 then -1 else 1
  if a < 1 then s * (3 * a ^ 2 / 2 - 2 * a)
  else if a < 2 then s * (-((2 - a) ^ 2) / 2)
  else 0

/-- Basis function `j` (of `m + 3` coefficients for `m` intervals) over a
uniform knot sequence starting at `xmin` with spacing `h`. -/
def basisVal (xmin h : ℚ) (j : Nat) (x : ℚ) : ℚ :=
  cubicB ((x - xmin) / h - ((j : ℚ) - 1))

/-- Derivative of basis function `j`. -/
def basisDeriv (xmin h : ℚ) (j : Nat) (x : ℚ) : ℚ :=
  cubicBderiv ((x - xmin) / h - ((j : ℚ) - 1)) / h

/-- Modelled from the spec (§3, Banded Normal-Equations Matrix): entry
`(j, k)` accumulates the product of basis functions `j` and `k` over all
abscissas. -/
def assembleMatrix (xmin h : ℚ) (nCoef : Nat) (xs : List ℚ) : List (List ℚ) :=
  (List.range nCoef).map (fun j =>
    (List.range nCoef).map (fun k =>
      xs.foldl (fun acc x => acc + basisVal xmin h j x * basisVal xmin h k x) 0))

/-- Modelled from the spec (§4.2): the right-hand side accumulates, for
each `(x, y)` pair, `y` times the basis values at `x`. -/
def assembleRHS (xmin h : ℚ) (nCoef : Nat) (xs ys : List ℚ) : List ℚ :=
  (List.range nCoef).map (fun j =>
    ((xs.zip ys).foldl (fun acc p => acc + p.2 * basisVal xmin h j p.1) 0))

/-- Find a row with a nonzero entry in the given column; return it and the
remaining rows. -/
def findPivot (col : Nat) : List (List ℚ) → Option (List ℚ × List (List ℚ))
  | [] => none
  | r :: rest =>
    if r.getD col 0 ≠ 0 then some (r, rest)
    else
      match findPivot col rest with
      | some (p, rem) => some (p, r :: rem)
      | none => none

/-- Eliminate the given column from a row using the pivot row. -/
def elimStep (col : Nat) (pivot r : List ℚ) : List ℚ :=
  let f := r.getD col 0 / pivot.getD col 0
  (r.zip pivot).map (fun p => p.1 - f * p.2)

/-- Forward elimination with explicit fuel (one unit per row): returns the
rows in pivot order, or `none` when no pivot can be found for a column —
the factorization-failure outcome of the spec. -/
def forwardElimFuel : Nat → Nat → List (List ℚ) → Option (List (List ℚ))
  | 0, _, rows => if rows.isEmpty then some [] else none
  | fuel + 1, col, rows =>
    match rows with
    | [] => some []
    | _ :: _ =>
      match findPivot col rows with
      | none => none
      | some (p, rest) =>
        (forwardElimFuel fuel (col + 1) (rest.map (elimStep col p))).map
          (fun tri => p :: tri)

/-- Dot product of two lists (up to the shorter length). -/
def dotList (a b : List ℚ) : ℚ :=
  ((a.zip b).map (fun p => p.1 * p.2)).foldl (· + ·) 0

/-- Back substitution on triangular augmented rows (`n` coefficient
columns plus a right-hand-side column). -/
def backSolve (n : Nat) : Nat → List (List ℚ) → List ℚ
  | col, r :: rest =>
    let tail := backSolve n (col + 1) rest
    let s := dotList ((r.drop (col + 1)).take (n - (col + 1))) tail
    ((r.getD n 0 - s) / r.getD col 0) :: tail
  | _, [] => []

/-- Solve a linear system by elimination over exact rationals. -/
def gaussSolve (m : List (List ℚ)) (rhs : List ℚ) : Option (List ℚ) :=
  let n := rhs.length
  let aug := (m.zip rhs).map (fun p => p.1 ++ [p.2])
  match forwardElimFuel aug.length 0 aug with
  | none => none
  | some tri => some (backSolve n 0 tri)

/-- Modelled from the spec (§4.1, edge cases): the configuration checks of
Basis Engine construction — the wavelength must be positive, an explicitly
selected (positive) node count must meet the cubic-basis minimum, and the
abscissas must span a positive range. -/
def baseConfigOk (xs : List ℚ) (waveLength : ℚ) (num_nodes : Int) : Bool :=
  decide (0 < waveLength) &&
    (decide (num_nodes ≤ 0) || decide ((cubicBasisMinNodes : Int) ≤ num_nodes)) &&
    decide (listMin xs < listMax xs)

/-- Modelled from the spec: the Basis Engine state — the inputs it keeps a
view of, the derived knot layout, the assembled normal-equations matrix,
and the `isValid()` status. -/
structure BaseModel where
  xs : List ℚ
  waveLength : ℚ
  bc : BCType
  num_nodes : Int
  xmin : ℚ
  h : ℚ
  nIntervals : Nat
  matrix : List (List ℚ)
  valid : Bool
deriving DecidableEq, Repr

/-- Modelled from the spec (§4.1): Basis Engine construction.  On a
configuration error the engine is left with `valid = false` (partial setup,
no abort); otherwise the matrix is assembled and `valid` records whether
the factorization (forward elimination) succeeds. -/
def buildBase (xs : List ℚ) (waveLength : ℚ) (bc : BCType) (num_nodes : Int) :
    BaseModel :=
  let xmin := listMin xs
  let span := listMax xs - xmin
  let m := nIntervalsFor span waveLength num_nodes
  let h := span / (m : ℚ)
  let mat :=
    if baseConfigOk xs waveLength num_nodes then
      assembleMatrix xmin h (m + 3) xs
    else []
  { xs := xs, waveLength := waveLength, bc := bc, num_nodes := num_nodes,
    xmin := xmin, h := h, nIntervals := m, matrix := mat,
    valid := baseConfigOk xs waveLength num_nodes &&
      (forwardElimFuel mat.length 0 mat).isSome }

/-- Modelled from the spec: a Curve Fit — a reference to its Basis Engine,
its own coefficient vector, and its solve status. -/
structure FitModel where
  base : BaseModel
  coeffs : List ℚ
  solveOk : Bool
deriving DecidableEq, Repr

/-- Modelled from the spec (§4.2): Curve Fit construction.  A fit over an
invalid Basis Engine, or with a Y vector whose length differs from the
engine's abscissas, fails immediately without attempting a solve;
otherwise the right-hand side is assembled and the system solved. -/
def fitCurve (b : BaseModel) (ys : List ℚ) : FitModel :=
  if b.valid = true ∧ ys.length = b.xs.length then
    match gaussSolve b.matrix (assembleRHS b.xmin b.h (b.nIntervals + 3) b.xs ys) with
    | some c => { base := b, coeffs := c, solveOk := true }
    | none => { base := b, coeffs := [], solveOk := false }
  else { base := b, coeffs := [], solveOk := false }

/-- Modelled from the spec (§4.2): `ok()` — true iff both the underlying
Basis Engine and this fit's solve succeeded. -/
def fitOk (f : FitModel) : Bool := f.base.valid && f.solveOk

/-- Modelled from the spec (§4.2): `evaluate(x)` — the weighted sum of the
basis values at `x` with this fit's coefficients. -/
def evaluateF (f : FitModel) (x : ℚ) : ℚ :=
  ((List.range f.coeffs.length).map
    (fun j => f.coeffs.getD j 0 * basisVal f.base.xmin f.base.h j x)).foldl
    (· + ·) 0

/-- Modelled from the spec (§4.2): `slope(x)` — the analytic derivative of
the fitted curve, from the basis derivatives and the same coefficients. -/
def slopeF (f : FitModel) (x : ℚ) : ℚ :=
  ((List.range f.coeffs.length).map
    (fun j => f.coeffs.getD j 0 * basisDeriv f.base.xmin f.base.h j x)).foldl
    (· + ·) 0

/-- The fitting pipeline as `main` drives it: build the Basis Engine from
the abscissas, the wavelength, the boundary condition, and the node count,
then fit the ordinates. -/
def fitPipeline (xs : List ℚ) (waveLength : ℚ) (bc : BCType) (num_nodes : Int)
    (ys : List ℚ) : FitModel :=
  fitCurve (buildBase xs waveLength bc num_nodes) ys

/- ### Helper lemmas -/

/-- If the wavelength is still negative and no remaining option sets a
nonnegative wavelength or exits early, the final wavelength check fails
and `parseCommandLine` exits with usage. -/
theorem parseLoop_exitUsage (opts : List Opt) :
    ∀ s : ParseState, s.wavelength < 0 →
      (∀ o ∈ opts, isWavelengthSet o = false ∧ isEarlyExit o = false) →
      parseLoop s opts = ParseResult.exitUsage := by
  induction opts with
  | nil =>
    intro s hs _
    simp [parseLoop, hs]
  | cons o rest ih =>
    intro s hs h
    have ho := h o (List.mem_cons_self o rest)
    have hrest : ∀ o' ∈ rest, isWavelengthSet o' = false ∧ isEarlyExit o' = false :=
      fun o' ho' => h o' (List.mem_cons_of_mem o ho')
    cases o with
    | helpOpt => simp [isEarlyExit] at ho
    | versionOpt => simp [isEarlyExit] at ho
    | wavelengthOpt v =>
      have hv : v < 0 := by
        have h1 := ho.1
        simp [isWavelengthSet] at h1
        exact h1
      exact ih _ (by simpa [applyOpt] using hv) hrest
    | input a => exact ih _ (by simpa [applyOpt] using hs) hrest
    | output a => exact ih _ (by simpa [applyOpt] using hs) hrest
    | stepOpt a => exact ih _ (by simpa [applyOpt] using hs) hrest
    | bcdegree a => exact ih _ (by simpa [applyOpt] using hs) hrest
    | nodes a => exact ih _ (by simpa [applyOpt] using hs) hrest
    | debugOpt => exact ih _ (by simpa [applyOpt] using hs) hrest
    | badOpt => exact ih _ (by simpa [applyOpt] using hs) hrest

/-- When no option in the list is a `-b` option, a normal parse leaves the
boundary condition exactly as it started. -/
theorem parseLoop_parsed_bc (opts : List Opt) :
    ∀ s cfg, (∀ o ∈ opts, isBcOpt o = false) →
      parseLoop s opts = ParseResult.parsed cfg → cfg.bc = s.bc := by
  induction opts with
  | nil =>
    intro s cfg _ hp
    simp only [parseLoop] at hp
    by_cases hc : (if s.wavelength < 0 then s.err + 1 else s.err) ≠ 0
    · rw [if_pos hc] at hp
      exact absurd hp (by simp)
    · rw [if_neg hc] at hp
      cases hp
      rfl
  | cons o rest ih =>
    intro s cfg h hp
    have ho := h o (List.mem_cons_self o rest)
    have hrest : ∀ o' ∈ rest, isBcOpt o' = false :=
      fun o' ho' => h o' (List.mem_cons_of_mem o ho')
    cases o with
    | helpOpt => simp [parseLoop] at hp
    | versionOpt => simp [parseLoop] at hp
    | bcdegree d => simp [isBcOpt] at ho
    | input a => exact (ih _ cfg hrest hp).trans (by simp [applyOpt])
    | output a => exact (ih _ cfg hrest hp).trans (by simp [applyOpt])
    | stepOpt a => exact (ih _ cfg hrest hp).trans (by simp [applyOpt])
    | wavelengthOpt a => exact (ih _ cfg hrest hp).trans (by simp [applyOpt])
    | nodes a => exact (ih _ cfg hrest hp).trans (by simp [applyOpt])
    | debugOpt => exact (ih _ cfg hrest hp).trans (by simp [applyOpt])
    | badOpt => exact (ih _ cfg hrest hp).trans (by simp [applyOpt])

/-- An option that is not a `-w` option certainly does not set a
nonnegative wavelength. -/
theorem isWavelengthSet_of_not_opt (o : Opt) (h : isWavelengthOpt o = false) :
    isWavelengthSet o = false := by
  cases o <;> simp_all [isWavelengthOpt, isWavelengthSet]

/-- A nonpositive wavelength fails the configuration check. -/
theorem baseConfigOk_false_of_wl (xs : List ℚ) (w : ℚ) (nn : Int) (hw : w ≤ 0) :
    baseConfigOk xs w nn = false := by
  unfold baseConfigOk
  rw [decide_eq_false (not_lt.mpr hw)]
  simp

/-- An explicit (positive) node count below the cubic-basis minimum fails
the configuration check. -/
theorem baseConfigOk_false_of_nodes (xs : List ℚ) (w : ℚ) (nn : Int)
    (h0 : 0 < nn) (hlt : nn < (cubicBasisMinNodes : Int)) :
    baseConfigOk xs w nn = false := by
  unfold baseConfigOk
  rw [decide_eq_false (not_le.mpr h0), decide_eq_false (not_le.mpr hlt)]
  simp

/-- A failed configuration check makes the constructed Basis Engine
invalid. -/
theorem buildBase_valid_false (xs : List ℚ) (w : ℚ) (bc : BCType) (nn : Int)
    (hc : baseConfigOk xs w nn = false) : (buildBase xs w bc nn).valid = false := by
  simp [buildBase, hc]

/-- A Curve Fit keeps a reference to the Basis Engine it was built from. -/
theorem fitCurve_base (b : BaseModel) (ys : List ℚ) : (fitCurve b ys).base = b := by
  unfold fitCurve
  split
  · split <;> rfl
  · rfl

/-- A Curve Fit over an invalid Basis Engine is never `ok`. -/
theorem fitOk_false_of_invalid (b : BaseModel) (ys : List ℚ) (h : b.valid = false) :
    fitOk (fitCurve b ys) = false := by
  unfold fitOk
  rw [fitCurve_base, h, Bool.false_and]

/- ### Claim theorems -/

/-- Claim C1: a wavelength that is zero or negative, and an explicitly
selected node count below the cubic-basis minimum, each make the Basis
Engine invalid (`isValid() == false`) and every Curve Fit built from it
invalid as well; and in the harness, `parseCommandLine` treats an
unset/negative wavelength as an error and exits with usage (status 1). -/
theorem claim1_invalid_config_rejected
    (xs : List ℚ) (w : ℚ) (bc : BCType) (nn : Int) (ys : List ℚ)
    (opts : List Opt) :
    (w ≤ 0 →
      (buildBase xs w bc nn).valid = false ∧
      fitOk (fitCurve (buildBase xs w bc nn) ys) = false) ∧
    (0 < nn → nn < (cubicBasisMinNodes : Int) →
      (buildBase xs w bc nn).valid = false ∧
      fitOk (fitCurve (buildBase xs w bc nn) ys) = false) ∧
    ((∀ o ∈ opts, isWavelengthSet o = false ∧ isEarlyExit o = false) →
      parseCommandLine opts = ParseResult.exitUsage ∧
      exitCode (parseCommandLine opts) = some 1) := by
  refine ⟨fun hw => ?_, fun h0 hlt => ?_, fun hopts => ?_⟩
  · have hc := baseConfigOk_false_of_wl xs w nn hw
    exact ⟨buildBase_valid_false xs w bc nn hc,
      fitOk_false_of_invalid _ ys (buildBase_valid_false xs w bc nn hc)⟩
  · have hc := baseConfigOk_false_of_nodes xs w nn h0 hlt
    exact ⟨buildBase_valid_false xs w bc nn hc,
      fitOk_false_of_invalid _ ys (buildBase_valid_false xs w bc nn hc)⟩
  · have hu : parseCommandLine opts = ParseResult.exitUsage :=
      parseLoop_exitUsage opts initState (by decide) hopts
    exact ⟨hu, by rw [hu]; rfl⟩

/-- Witness for C1 at concrete inputs: wavelength 0, node count 1, and an
option list with no wavelength option. -/
theorem claim1_invalid_config_rejected_witness :
    ((0 : ℚ) ≤ 0 ∧ (buildBase [0, 1] 0 BCType.BC_ZERO_SECOND 0).valid = false) ∧
    ((0 : Int) < 1 ∧ (1 : Int) < (cubicBasisMinNodes : Int) ∧
      (buildBase [0, 1] 5 BCType.BC_ZERO_SECOND 1).valid = false) ∧
    parseCommandLine [Opt.debugOpt] = ParseResult.exitUsage :=
  ⟨⟨le_refl 0,
    ((claim1_invalid_config_rejected [0, 1] 0 BCType.BC_ZERO_SECOND 0 [] []).1
      (le_refl 0)).1⟩,
   ⟨by decide, by decide,
    (((claim1_invalid_config_rejected [0, 1] 5 BCType.BC_ZERO_SECOND 1 [] []).2.1
      (by decide)) (by decide)).1⟩,
   ((claim1_invalid_config_rejected [] 0 BCType.BC_ZERO_SECOND 0 [] [Opt.debugOpt]).2.2
      (by decide)).1⟩

/-- Claim C2: the boundary-condition selector defaults to the
zero-second-derivative (natural-spline) condition — `bc` is initialized to
`BC_ZERO_SECOND` and stays there when no `-b` option is given — and a `-b`
argument of 0 maps to `BC_ZERO_ENDPOINTS`, 1 to `BC_ZERO_FIRST`, and every
other integer (including 2) to `BC_ZERO_SECOND`. -/
theorem claim2_boundary_condition_selector :
    initState.bc = BCType.BC_ZERO_SECOND ∧
    (∀ opts cfg, (∀ o ∈ opts, isBcOpt o = false) →
      parseCommandLine opts = ParseResult.parsed cfg →
      cfg.bc = BCType.BC_ZERO_SECOND) ∧
    bcFromDegree 0 = BCType.BC_ZERO_ENDPOINTS ∧
    bcFromDegree 1 = BCType.BC_ZERO_FIRST ∧
    bcFromDegree 2 = BCType.BC_ZERO_SECOND ∧
    (∀ d : Int, d ≠ 0 → d ≠ 1 → bcFromDegree d = BCType.BC_ZERO_SECOND) := by
  refine ⟨rfl, fun opts cfg h hp => ?_, rfl, rfl, rfl, fun d h0 h1 => ?_⟩
  · exact (parseLoop_parsed_bc opts initState cfg h hp).trans rfl
  · simp [bcFromDegree, h0, h1]

/-- Witness for C2: parsing `-w 1` alone yields the default boundary
condition, and a `-b` degree of 5 also selects `BC_ZERO_SECOND`. -/
theorem claim2_boundary_condition_selector_witness :
    cfgWavelengthOne.bc = BCType.BC_ZERO_SECOND ∧
    bcFromDegree 5 = BCType.BC_ZERO_SECOND :=
  ⟨claim2_boundary_condition_selector.2.1 [Opt.wavelengthOpt 1] _ (by decide)
      (by decide),
   claim2_boundary_condition_selector.2.2.2.2.2 5 (by decide) (by decide)⟩

/-- Claim C3: `ok()` is true iff both the Basis Engine setup and the fit's
solve succeeded; a fit over an invalid engine is never ok; and in the
harness, a false `ok()` produces no curve output (`DumpSpline` is not
called, so `evaluate`/`slope` are never invoked) and reports the failure
message instead. -/
theorem claim3_ok_gates_output :
    (∀ f : FitModel, fitOk f = true ↔ (f.base.valid = true ∧ f.solveOk = true)) ∧
    (∀ (b : BaseModel) (ys : List ℚ), b.valid = false →
      fitOk (fitCurve b ys) = false) ∧
    (∀ n, mainReport false n = FitReport.failureMsg "Spline setup failed.") ∧
    (∀ n, mainEvalCalls false n = 0) ∧
    (∀ n, mainReport true n = FitReport.curve (dumpLineCount n)) ∧
    (∀ n, mainEvalCalls true n = dumpEvalCallCount n) := by
  refine ⟨fun f => ?_, fun b ys h => fitOk_false_of_invalid b ys h,
    fun n => rfl, fun n => rfl, fun n => ?_, fun n => ?_⟩
  · simp [fitOk, Bool.and_eq_true]
  · simp [mainReport]
  · simp [mainEvalCalls]

/-- Witness for C3: a fit over the invalid engine built with wavelength 0
is not ok, and the harness then reports the failure message. -/
theorem claim3_ok_gates_output_witness :
    (buildBase [0, 1] 0 BCType.BC_ZERO_SECOND 0).valid = false ∧
    fitOk (fitCurve (buildBase [0, 1] 0 BCType.BC_ZERO_SECOND 0) [1, 2]) = false ∧
    mainReport false 2 = FitReport.failureMsg "Spline setup failed." ∧
    mainEvalCalls false 2 = 0 :=
  ⟨by decide,
   claim3_ok_gates_output.2.1 (buildBase [0, 1] 0 BCType.BC_ZERO_SECOND 0) [1, 2]
     (by decide),
   claim3_ok_gates_output.2.2.1 2,
   claim3_ok_gates_output.2.2.2.1 2⟩

/-- Claim C4: exactly one of the wavelength and the explicit node count
determines the knot spacing (a positive node count selects the node-count
formula, which ignores the wavelength; otherwise the wavelength formula is
used, which ignores the node count); yet the harness initializes the node
count to 0, always requires a wavelength (exiting with usage when no `-w`
option appears), and passes the wavelength and node count together to the
spline constructor. -/
theorem claim4_wavelength_and_nodes :
    (∀ (span w : ℚ) (nn : Int), 0 < nn →
      nIntervalsFor span w nn = (nn - 1).toNat) ∧
    (∀ (span w : ℚ) (nn : Int), nn ≤ 0 →
      nIntervalsFor span w nn = max 1 ((span / w).ceil.toNat)) ∧
    initState.num_nodes = 0 ∧
    initState.wavelength < 0 ∧
    (∀ opts, (∀ o ∈ opts, isWavelengthOpt o = false ∧ isEarlyExit o = false) →
      parseCommandLine opts = ParseResult.exitUsage) ∧
    (∀ cfg, mainSplineArgs cfg = (cfg.wavelength, cfg.bc, cfg.num_nodes)) := by
  refine ⟨fun span w nn h => ?_, fun span w nn h => ?_, rfl, by decide,
    fun opts h => ?_, fun cfg => rfl⟩
  · simp [nIntervalsFor, h]
  · simp [nIntervalsFor, not_lt.mpr h]
  · exact parseLoop_exitUsage opts initState (by decide)
      (fun o ho => ⟨isWavelengthSet_of_not_opt o (h o ho).1, (h o ho).2⟩)

/-- Witness for C4: node count 3 fixes the interval count regardless of
wavelength, and an option list with only `-n 5` still exits with usage. -/
theorem claim4_wavelength_and_nodes_witness :
    nIntervalsFor 9 100 3 = 2 ∧
    parseCommandLine [Opt.nodes 5] = ParseResult.exitUsage :=
  ⟨(claim4_wavelength_and_nodes.1 9 100 3 (by decide)).trans (by decide),
   claim4_wavelength_and_nodes.2.2.2.2.1 [Opt.nodes 5] (by decide)⟩

/-- Claim C5: the fitting pipeline is a deterministic function of its
inputs — two runs on equal abscissas, wavelength, boundary condition, node
count, and Y vector yield identical coefficient vectors and identical
`evaluate`/`slope` results. -/
theorem claim5_two_run_determinism
    (xs xs' : List ℚ) (w w' : ℚ) (bc bc' : BCType) (nn nn' : Int)
    (ys ys' : List ℚ) (t : ℚ)
    (hx : xs = xs') (hw : w = w') (hb : bc = bc') (hn : nn = nn')
    (hy : ys = ys') :
    (fitPipeline xs w bc nn ys).coeffs = (fitPipeline xs' w' bc' nn' ys').coeffs ∧
    fitOk (fitPipeline xs w bc nn ys) = fitOk (fitPipeline xs' w' bc' nn' ys') ∧
    evaluateF (fitPipeline xs w bc nn ys) t =
      evaluateF (fitPipeline xs' w' bc' nn' ys') t ∧
    slopeF (fitPipeline xs w bc nn ys) t =
      slopeF (fitPipeline xs' w' bc' nn' ys') t := by
  subst hx; subst hw; subst hb; subst hn; subst hy
  exact ⟨rfl, rfl, rfl, rfl⟩

/-- Witness for C5 at a concrete input. -/
theorem claim5_two_run_determinism_witness :
    (fitPipeline [0, 1, 2] 5 BCType.BC_ZERO_SECOND 0 [1, 1, 1]).coeffs =
      (fitPipeline [0, 1, 2] 5 BCType.BC_ZERO_SECOND 0 [1, 1, 1]).coeffs ∧
    fitOk (fitPipeline [0, 1, 2] 5 BCType.BC_ZERO_SECOND 0 [1, 1, 1]) =
      fitOk (fitPipeline [0, 1, 2] 5 BCType.BC_ZERO_SECOND 0 [1, 1, 1]) ∧
    evaluateF (fitPipeline [0, 1, 2] 5 BCType.BC_ZERO_SECOND 0 [1, 1, 1]) (1/2) =
      evaluateF (fitPipeline [0, 1, 2] 5 BCType.BC_ZERO_SECOND 0 [1, 1, 1]) (1/2) ∧
    slopeF (fitPipeline [0, 1, 2] 5 BCType.BC_ZERO_SECOND 0 [1, 1, 1]) (1/2) =
      slopeF (fitPipeline [0, 1, 2] 5 BCType.BC_ZERO_SECOND 0 [1, 1, 1]) (1/2) :=
  claim5_two_run_determinism [0, 1, 2] [0, 1, 2] 5 5 BCType.BC_ZERO_SECOND
    BCType.BC_ZERO_SECOND 0 0 [1, 1, 1] [1, 1, 1] (1/2) rfl rfl rfl rfl rfl

/-- Claim C7: the version surface is a static constant — `BSPLINE_VERSION`
is the fixed string "v1.6-x" — and the harness's `-v` option prints the
version string and the repository URL and exits with status 0 without
performing any fit. -/
theorem claim7_version_surface :
    BSPLINE_VERSION = "v1.6-x" ∧
    SplineBaseVersion = BSPLINE_VERSION ∧
    BSPLINE_URL = "https://github.com/NCAR/bspline" ∧
    (∀ (s : ParseState) (rest : List Opt),
      parseLoop s (Opt.versionOpt :: rest) =
        ParseResult.exitVersion SplineBaseVersion BSPLINE_URL) ∧
    (∀ (s : ParseState) (rest : List Opt),
      exitCode (parseLoop s (Opt.versionOpt :: rest)) = some 0) ∧
    (∀ (s : ParseState) (rest : List Opt),
      fitPerformed (parseLoop s (Opt.versionOpt :: rest)) = false) :=
  ⟨rfl, rfl, rfl, fun _ _ => rfl, fun _ _ => rfl, fun _ _ => rfl⟩

/- ### Lemmas about the subsampling loop -/

/-- Subsampling an empty x vector copies nothing. -/
theorem subsamplePairs_nil_left (step : Nat) (y : List ℚ) :
    subsamplePairs step [] y = ([], []) := by
  cases y with
  | nil => rw [subsamplePairs.eq_def]
  | cons b ys => rw [subsamplePairs.eq_def]

/-- Subsampling an empty y vector copies nothing. -/
theorem subsamplePairs_nil_right (step : Nat) (x : List ℚ) :
    subsamplePairs step x [] = ([], []) := by
  cases x with
  | nil => rw [subsamplePairs.eq_def]
  | cons a xs => rw [subsamplePairs.eq_def]

/-- Unfolding one iteration of the subsampling loop. -/
theorem subsamplePairs_cons (step : Nat) (a b : ℚ) (xs ys : List ℚ) :
    subsamplePairs step (a :: xs) (b :: ys) =
      (a :: (subsamplePairs step (xs.drop (step - 1)) (ys.drop (step - 1))).1,
       b :: (subsamplePairs step (xs.drop (step - 1)) (ys.drop (step - 1))).2) := by
  rw [subsamplePairs]

/-- Ceiling-division arithmetic for the subsample length count. -/
theorem subsample_div_aux (d step : Nat) (hstep : 1 ≤ step) :
    (d - (step - 1) + step - 1) / step + 1 = (d + 1 + step - 1) / step := by
  rcases le_or_lt (step - 1) d with hle | hlt
  · have e1 : d - (step - 1) + step - 1 = d := by omega
    have e2 : d + 1 + step - 1 = d + step := by omega
    rw [e1, e2, Nat.add_div_right _ (by omega)]
  · have e1 : d - (step - 1) + step - 1 = step - 1 := by omega
    have e2 : d + 1 + step - 1 = d + step := by omega
    rw [e1, e2, Nat.add_div_right _ (by omega),
      Nat.div_eq_of_lt (by omega : step - 1 < step),
      Nat.div_eq_of_lt (by omega : d < step)]

/-- The subsampling loop keeps `⌈n/step⌉ = (n + step - 1) / step` elements
of each of two equal-length vectors. -/
theorem subsamplePairs_length (step : Nat) (hstep : 1 ≤ step) (x y : List ℚ)
    (h : x.length = y.length) :
    (subsamplePairs step x y).1.length = (x.length + step - 1) / step ∧
    (subsamplePairs step x y).2.length = (y.length + step - 1) / step := by
  induction x, y using subsamplePairs.induct step with
  | case1 a xs b ys ih =>
    have hxy : xs.length = ys.length := by simpa using h
    have hlen : (xs.drop (step - 1)).length = (ys.drop (step - 1)).length := by
      simp [List.length_drop, hxy]
    have ih' := ih hlen
    rw [subsamplePairs_cons]
    simp only [List.length_cons]
    rw [ih'.1, ih'.2]
    simp only [List.length_drop]
    exact ⟨subsample_div_aux xs.length step hstep,
      subsample_div_aux ys.length step hstep⟩
  | case2 x y hne =>
    cases x with
    | nil =>
      have hy : y = [] := List.length_eq_zero.mp (by simpa using h.symm)
      subst hy
      rw [subsamplePairs_nil_left]
      constructor <;>
        · simp only [List.length_nil, Nat.zero_add]
          exact (Nat.div_eq_of_lt (by omega)).symm
    | cons a xs =>
      cases y with
      | nil => simp at h
      | cons b ys => exact (hne a xs b ys rfl rfl).elim

/-- The x elements kept by the subsampling loop are exactly those at the
original indices `0, step, 2*step, ...`. -/
theorem subsamplePairs_fst_getElem (step : Nat) (hstep : 1 ≤ step)
    (x y : List ℚ) (h : x.length = y.length) :
    ∀ k, (subsamplePairs step x y).1[k]? = x[k * step]? := by
  induction x, y using subsamplePairs.induct step with
  | case1 a xs b ys ih =>
    intro k
    have hxy : xs.length = ys.length := by simpa using h
    have hlen : (xs.drop (step - 1)).length = (ys.drop (step - 1)).length := by
      simp [List.length_drop, hxy]
    rw [subsamplePairs_cons]
    cases k with
    | zero => simp
    | succ k' =>
      have ih' := ih hlen k'
      rw [List.getElem?_cons_succ, ih', List.getElem?_drop]
      have e : (k' + 1) * step = step - 1 + k' * step + 1 := by
        rw [Nat.succ_mul]
        omega
      rw [e, List.getElem?_cons_succ]
  | case2 x y hne =>
    intro k
    cases x with
    | nil =>
      have hy : y = [] := List.length_eq_zero.mp (by simpa using h.symm)
      subst hy
      rw [subsamplePairs_nil_left]
      simp
    | cons a xs =>
      cases y with
      | nil => simp at h
      | cons b ys => exact (hne a xs b ys rfl rfl).elim

/-- The y elements kept by the subsampling loop are exactly those at the
original indices `0, step, 2*step, ...`. -/
theorem subsamplePairs_snd_getElem (step : Nat) (hstep : 1 ≤ step)
    (x y : List ℚ) (h : x.length = y.length) :
    ∀ k, (subsamplePairs step x y).2[k]? = y[k * step]? := by
  induction x, y using subsamplePairs.induct step with
  | case1 a xs b ys ih =>
    intro k
    have hxy : xs.length = ys.length := by simpa using h
    have hlen : (xs.drop (step - 1)).length = (ys.drop (step - 1)).length := by
      simp [List.length_drop, hxy]
    rw [subsamplePairs_cons]
    cases k with
    | zero => simp
    | succ k' =>
      have ih' := ih hlen k'
      rw [List.getElem?_cons_succ, ih', List.getElem?_drop]
      have e : (k' + 1) * step = step - 1 + k' * step + 1 := by
        rw [Nat.succ_mul]
        omega
      rw [e, List.getElem?_cons_succ]
  | case2 x y hne =>
    intro k
    cases x with
    | nil =>
      have hy : y = [] := List.length_eq_zero.mp (by simpa using h.symm)
      subst hy
      rw [subsamplePairs_nil_left]
      simp
    | cons a xs =>
      cases y with
      | nil => simp at h
      | cons b ys => exact (hne a xs b ys rfl rfl).elim

/-- Claim C8: for equal-length vectors and `step > 1`, the subsampling
loop leaves both vectors holding exactly the elements at original indices
`0, step, 2*step, ...` in order, resized to `⌈n/step⌉` (written
`(n + step - 1) / step`); for `step ≤ 1` both vectors are unchanged. -/
theorem claim8_subsample (step : Int) (x y : List ℚ) (hlen : x.length = y.length) :
    (1 < step →
      (subsample step x y).1.length = (x.length + step.toNat - 1) / step.toNat ∧
      (subsample step x y).2.length = (y.length + step.toNat - 1) / step.toNat ∧
      (∀ k, (subsample step x y).1[k]? = x[k * step.toNat]?) ∧
      (∀ k, (subsample step x y).2[k]? = y[k * step.toNat]?)) ∧
    (step ≤ 1 → subsample step x y = (x, y)) := by
  constructor
  · intro hstep
    have h1 : 1 ≤ step.toNat := by omega
    unfold subsample
    rw [if_pos hstep]
    exact ⟨(subsamplePairs_length step.toNat h1 x y hlen).1,
      (subsamplePairs_length step.toNat h1 x y hlen).2,
      subsamplePairs_fst_getElem step.toNat h1 x y hlen,
      subsamplePairs_snd_getElem step.toNat h1 x y hlen⟩
  · intro hle
    unfold subsample
    rw [if_neg (not_lt.mpr hle)]

/-- Witness for C8 at step 2 on five-element vectors. -/
theorem claim8_subsample_witness :
    ([1, 2, 3, 4, 5] : List ℚ).length = ([6, 7, 8, 9, 10] : List ℚ).length ∧
    (subsample 2 [1, 2, 3, 4, 5] [6, 7, 8, 9, 10]).1.length =
      (([1, 2, 3, 4, 5] : List ℚ).length + (2 : Int).toNat - 1) / (2 : Int).toNat ∧
    (subsample 2 [1, 2, 3, 4, 5] [6, 7, 8, 9, 10]).1[1]? =
      ([1, 2, 3, 4, 5] : List ℚ)[1 * (2 : Int).toNat]? ∧
    (subsample 2 [1, 2, 3, 4, 5] [6, 7, 8, 9, 10]).2[2]? =
      ([6, 7, 8, 9, 10] : List ℚ)[2 * (2 : Int).toNat]? := by
  have h := claim8_subsample 2 [1, 2, 3, 4, 5] [6, 7, 8, 9, 10] rfl
  exact ⟨rfl, (h.1 (by decide)).1, (h.1 (by decide)).2.2.1 1, (h.1 (by decide)).2.2.2 2⟩

/- ### Lemmas about the input-reading loop -/

/-- The number of pairs extracted from `n` input values is `⌊n/2⌋`: a
trailing unpaired value contributes nothing. -/
theorem toPairs_length : ∀ l : List ℚ, (toPairs l).length = l.length / 2
  | [] => rfl
  | [_] => by simp [toPairs]
  | f :: g :: rest => by
    have ih := toPairs_length rest
    simp only [toPairs, List.length_cons, ih]
    omega

/-- The read loop stores, pair by pair, the first component minus `base`
as an abscissa and the second component unchanged as an ordinate. -/
theorem readPairs_eq (base : ℚ) : ∀ l : List ℚ,
    readPairs base l =
      ((toPairs l).map (fun p => p.1 - base), (toPairs l).map Prod.snd)
  | [] => rfl
  | [_] => rfl
  | f :: g :: rest => by
    have ih := readPairs_eq base rest
    simp [readPairs, toPairs, ih]

/-- Claim C9: the input-reading loop appends to x and y only in pairs, so
both vectors have length `⌊n/2⌋` for `n` input values (a trailing value
with no partner is discarded); every stored abscissa is the value read
minus the first value read; and whenever anything was stored at all, the
first stored abscissa is exactly 0. -/
theorem claim9_read_loop (input : List ℚ) :
    (readData input).1.length = (readData input).2.length ∧
    (readData input).1.length = input.length / 2 ∧
    (∀ i : Nat, (readData input).1[i]? =
      ((toPairs input)[i]?).map (fun p : ℚ × ℚ => p.1 - input.headI)) ∧
    (∀ i : Nat, (readData input).2[i]? = ((toPairs input)[i]?).map Prod.snd) ∧
    ((readData input).1 ≠ [] → (readData input).1.headI = 0) := by
  cases input with
  | nil => simp [readData, toPairs]
  | cons f rest =>
    have he := readPairs_eq f (f :: rest)
    have hx : (readData (f :: rest)).1 =
        (toPairs (f :: rest)).map (fun p => p.1 - f) := by
      simp only [readData, he]
    have hy : (readData (f :: rest)).2 = (toPairs (f :: rest)).map Prod.snd := by
      simp only [readData, he]
    refine ⟨?_, ?_, ?_, ?_, ?_⟩
    · rw [hx, hy]
      simp
    · rw [hx]
      simp [toPairs_length]
    · intro i
      rw [hx]
      simp
    · intro i
      rw [hy]
      simp
    · intro hne
      cases rest with
      | nil =>
        exact absurd (rfl : (readData [f]).1 = []) hne
      | cons g rest' =>
        rw [hx]
        simp [toPairs]

/-- Witness for C9: input stream `3 5 7` stores one pair, drops the
trailing 7, and the stored abscissa is `3 - 3 = 0`. -/
theorem claim9_read_loop_witness :
    (readData [3, 5, 7]).1 ≠ [] ∧
    (readData [3, 5, 7]).1.headI = 0 ∧
    (readData [3, 5, 7]).1.length = ([3, 5, 7] : List ℚ).length / 2 :=
  ⟨by decide, (claim9_read_loop [3, 5, 7]).2.2.2.2 (by decide),
   (claim9_read_loop [3, 5, 7]).2.1⟩

/- ### Lemmas about the DumpSpline loop -/

/-- Ceiling-division step for the DumpSpline iteration count. -/
theorem dump_div_aux (bound i : Nat) (h : i < bound) :
    (bound - i + 1) / 2 = (bound - (i + 2) + 1) / 2 + 1 := by
  rcases le_or_lt (i + 2) bound with hle | hlt
  · have e1 : bound - i + 1 = bound - (i + 2) + 1 + 2 := by omega
    rw [e1, Nat.add_div_right _ (by norm_num)]
  · have e1 : bound - (i + 2) = 0 := by omega
    have e2 : bound - i = 1 := by omega
    rw [e1, e2]

/-- When the bound is small enough that the 32-bit counter never wraps
while below it, the loop exits as soon as it is given one fuel unit per
remaining iteration, listing one counter value per step of 2 from `i` up
to (but not including) `bound`, all of the start value's parity. -/
theorem dumpLoop_some (bound : Nat) (hb : bound + 2 ≤ UINT_MOD) :
    ∀ (fuel i : Nat), (bound - i + 1) / 2 ≤ fuel →
      ∃ l : List Nat, dumpLoop bound i fuel = some l ∧
        l.length = (bound - i + 1) / 2 ∧
        ∀ j ∈ l, i ≤ j ∧ j < bound ∧ j % 2 = i % 2 := by
  intro fuel
  induction fuel with
  | zero =>
    intro i hf
    have hbi : ¬ i < bound := by
      intro hlt
      have h2 : 2 ≤ bound - i + 1 := by omega
      omega
    refine ⟨[], by simp [dumpLoop, hbi], ?_, by simp⟩
    have e : bound - i = 0 := by omega
    simp [e]
  | succ fuel ih =>
    intro i hf
    by_cases hlt : i < bound
    · have hstep : dumpStep i = i + 2 := by
        unfold dumpStep
        rw [Nat.mod_eq_of_lt (by omega)]
      have harith := dump_div_aux bound i hlt
      have hf2 : (bound - (i + 2) + 1) / 2 ≤ fuel := by omega
      obtain ⟨l, hl, hlen, hmem⟩ := ih (i + 2) hf2
      refine ⟨i :: l, ?_, ?_, ?_⟩
      · simp [dumpLoop, hlt, hstep, hl]
      · simp only [List.length_cons, hlen]
        omega
      · intro j hj
        rcases List.mem_cons.mp hj with rfl | hj2
        · exact ⟨le_refl j, hlt, rfl⟩
        · have h3 := hmem j hj2
          exact ⟨by omega, h3.2.1, by omega⟩
    · refine ⟨[], by simp [dumpLoop, hlt], ?_, by simp⟩
      have e : bound - i = 0 := by omega
      simp [e]

/-- When the bound is at least `2^32 - 1`, an even 32-bit counter can
never reach it: it wraps instead, so the loop never exits, at any fuel. -/
theorem dumpLoop_none (bound : Nat) (hb : UINT_MOD - 1 ≤ bound) :
    ∀ (fuel i : Nat), i % 2 = 0 → i < UINT_MOD → dumpLoop bound i fuel = none := by
  have hU : UINT_MOD = 4294967296 := by norm_num [UINT_MOD]
  intro fuel
  induction fuel with
  | zero =>
    intro i he hi
    have hlt : i < bound := by omega
    simp [dumpLoop, hlt]
  | succ fuel ih =>
    intro i he hi
    have hlt : i < bound := by omega
    have h2 : dumpStep i % 2 = 0 := by
      simp only [dumpStep, hU]
      omega
    have h3 : dumpStep i < UINT_MOD := by
      simp only [dumpStep, hU]
      omega
    simp [dumpLoop, hlt, ih (dumpStep i) h2 h3]

/-- Claim C10: for a non-empty vector of n points (n below 2^31, so that
the 32-bit unsigned loop counter never wraps before reaching the bound),
DumpSpline prints exactly one header line plus one data row per sample
point (n rows), evaluating the spline only at the sample points (both
vector indices of a row coincide, and each is in bounds) since evalmid is
fixed false; the non-emptiness precondition is essential because the
unsigned loop bound 2*size-1 wraps around to 2^64 - 1 when the vector is
empty, and the loop then never exits at any iteration budget. -/
theorem claim10_dumpspline (n : Nat) (h1 : 1 ≤ n) (h2 : n < 2 ^ 31) :
    dumpBound n = 2 * n - 1 ∧
    (∃ rows : List Nat, dumpRowIndices n = some rows ∧ rows.length = n ∧
      ∀ j ∈ rows, (dumpAccessIndices j).1 < n ∧
        (dumpAccessIndices j).2 = (dumpAccessIndices j).1) ∧
    dumpLineCount n = 1 + n ∧
    dumpEvalCallCount n = n ∧
    dumpBound 0 = 2 ^ 64 - 1 ∧
    (∀ fuel, dumpLoop (dumpBound 0) 0 fuel = none) := by
  have hM : SIZE_T_MOD = 18446744073709551616 := by norm_num [SIZE_T_MOD]
  have hU : UINT_MOD = 4294967296 := by norm_num [UINT_MOD]
  have h31 : n < 2147483648 := by
    have h3 := h2
    norm_num at h3
    exact h3
  have hb : dumpBound n = 2 * n - 1 := by
    unfold dumpBound
    rw [hM]
    have e : 2 * n + (18446744073709551616 - 1) =
        2 * n - 1 + 18446744073709551616 := by omega
    rw [e, Nat.add_mod_right, Nat.mod_eq_of_lt (by omega)]
  have hb0 : dumpBound 0 = 2 ^ 64 - 1 := by
    unfold dumpBound
    rw [hM]
    norm_num
  have hb2 : (2 * n - 1) + 2 ≤ UINT_MOD := by omega
  obtain ⟨rows, hrows, hlen, hmem⟩ :=
    dumpLoop_some (2 * n - 1) hb2 n 0 (by omega)
  have hlen2 : rows.length = n := by
    rw [hlen]
    omega
  have hri : dumpRowIndices n = some rows := by
    unfold dumpRowIndices
    rw [hb]
    exact hrows
  refine ⟨hb, ⟨rows, hri, hlen2, ?_⟩, ?_, ?_, hb0, ?_⟩
  · intro j hj
    have h3 := hmem j hj
    have hja := h3.2.1
    have hjb := h3.2.2
    unfold dumpAccessIndices
    exact ⟨by omega, by omega⟩
  · unfold dumpLineCount dumpRowCount
    rw [hri]
    simp [hlen2]
  · unfold dumpEvalCallCount dumpRowCount
    rw [hri]
    simp [hlen2]
  · intro fuel
    exact dumpLoop_none (dumpBound 0) (by rw [hb0, hU]; norm_num) fuel 0
      (by norm_num) (by rw [hU]; norm_num)

/-- Witness for C10 at n = 4 sample points: the loop exits after four
iterations at counters 0, 2, 4, 6. -/
theorem claim10_dumpspline_witness :
    dumpBound 4 = 2 * 4 - 1 ∧
    dumpRowIndices 4 = some [0, 2, 4, 6] ∧
    dumpLineCount 4 = 1 + 4 ∧
    dumpEvalCallCount 4 = 4 :=
  ⟨(claim10_dumpspline 4 (by norm_num) (by norm_num)).1,
   by decide,
   (claim10_dumpspline 4 (by norm_num) (by norm_num)).2.2.1,
   (claim10_dumpspline 4 (by norm_num) (by norm_num)).2.2.2.1⟩

end BSplineSpec
